import Mathlib

/-!
Verification development for the `protobuf_to_pydantic` schema-to-model compiler.

The Python sources are shallowly embedded as executable Lean definitions:

* `ProtobufToPydantic.CustomerValidator` embeds the per-field validator
  functions of `get_desc/from_pgv/customer_validator.py` (durations and
  timestamps are modelled on the rational number line, Python strings as
  Lean strings, `raise ValueError` as `Except.error`).
* `ProtobufToPydantic.FromPgv` embeds the constraint-metadata translation of
  `get_desc/from_pgv/__init__.py` (`option_descriptor_to_desc_dict` and its
  tables); logger warnings are accumulated in the result record.
* `ProtobufToPydantic.GenModel` embeds the schema walker of `gen_model.py`
  (`M2P._parse_msg_to_pydantic_model` and its helpers).  Python dictionaries
  are modelled as insertion-ordered association lists, raised exceptions as
  `Except.error`, and the unbounded recursion of the walker is driven by an
  explicit fuel parameter (the Python code relies on the in-progress cache
  sentinel to terminate; the fuel only models non-termination as the extra
  error `PErr.outOfFuel`).
-/

namespace ProtobufToPydantic

/-! ### Python dictionaries as insertion-ordered association lists -/

/-- Lookup in a Python dictionary (`d.get(k)` / `k in d`). -/
def dlookup {κ V : Type} [DecidableEq κ] : List (κ × V) → κ → Option V
  | [], _ => none
  | p :: rest, k => if p.1 = k then some p.2 else dlookup rest k

/-- Assignment `d[k] = v` in a Python dictionary: replaces the value in place
when the key is present, appends otherwise (insertion order preserved). -/
def dset {κ V : Type} [DecidableEq κ] : List (κ × V) → κ → V → List (κ × V)
  | [], k, v => [(k, v)]
  | p :: rest, k, v => if p.1 = k then (k, v) :: rest else p :: dset rest k v

/-- In-place update of the value stored under a key (`d[k].f = ...` on a
mutable value); a no-op when the key is absent. -/
def dupdate {κ V : Type} [DecidableEq κ] : List (κ × V) → κ → (V → V) → List (κ × V)
  | [], _, _ => []
  | p :: rest, k, g => if p.1 = k then (k, g p.2) :: rest else p :: dupdate rest k g

/-- `s.add(x)` on a Python set, modelled as a duplicate-free-by-construction
insertion into a list. -/
def sadd {α : Type} [DecidableEq α] (l : List α) (a : α) : List α :=
  if a ∈ l then l else l ++ [a]

theorem dlookup_dset_self {κ V : Type} [DecidableEq κ] (l : List (κ × V)) (k : κ) (v : V) :
    dlookup (dset l k v) k = some v := by
  induction l with
  | nil => simp [dset, dlookup]
  | cons p rest ih =>
    by_cases h : p.1 = k
    · simp [dset, h, dlookup]
    · simp [dset, h, dlookup, ih]

theorem dlookup_dset_ne {κ V : Type} [DecidableEq κ] (l : List (κ × V)) (k k' : κ) (v : V)
    (h : k' ≠ k) : dlookup (dset l k v) k' = dlookup l k' := by
  induction l with
  | nil => simp [dset, dlookup, Ne.symm h]
  | cons p rest ih =>
    by_cases hp : p.1 = k
    · subst hp
      simp [dset, dlookup, Ne.symm h]
    · simp only [dset, hp, if_false]
      by_cases hp' : p.1 = k'
      · simp [dlookup, hp']
      · simp [dlookup, hp', ih]

theorem dlookup_dupdate_ne {κ V : Type} [DecidableEq κ] (l : List (κ × V)) (k k' : κ)
    (g : V → V) (h : k' ≠ k) : dlookup (dupdate l k g) k' = dlookup l k' := by
  induction l with
  | nil => simp [dupdate]
  | cons p rest ih =>
    by_cases hp : p.1 = k
    · subst hp
      simp [dupdate, dlookup, Ne.symm h]
    · simp only [dupdate, hp, if_false]
      by_cases hp' : p.1 = k'
      · simp [dlookup, hp']
      · simp [dlookup, hp', ih]

theorem dlookup_mem_values {κ V : Type} [DecidableEq κ] (l : List (κ × V)) (k : κ) (v : V)
    (h : dlookup l k = some v) : v ∈ l.map Prod.snd := by
  induction l with
  | nil => simp [dlookup] at h
  | cons p rest ih =>
    by_cases hp : p.1 = k
    · simp only [dlookup, hp, if_true, Option.some.injEq] at h
      simp [← h]
    · simp only [dlookup, hp, if_false] at h
      simp [ih h]

theorem mem_sadd_self {α : Type} [DecidableEq α] (l : List α) (a : α) : a ∈ sadd l a := by
  by_cases h : a ∈ l <;> simp [sadd, h]

theorem mem_sadd_of_mem {α : Type} [DecidableEq α] (l : List α) (a b : α) (h : a ∈ l) :
    a ∈ sadd l b := by
  by_cases hb : b ∈ l <;> simp [sadd, hb, h]

/-! ### Python string primitives

The embeddings below avoid the Lean core `String` operations whose reference
implementations do not reduce in the kernel, and instead work on the
underlying character lists. -/

/-- Python `v.startswith(s)`. -/
def pyStartsWith (v s : String) : Bool :=
  s.data.isPrefixOf v.data

/-- Python `v.endswith(s)`. -/
def pyEndsWith (v s : String) : Bool :=
  s.data.isSuffixOf v.data

/-- Python `s.lower()` (ASCII case folding, as used on type names). -/
def pyToLower (s : String) : String :=
  ⟨s.data.map Char.toLower⟩

/-- Splitting a character list at every occurrence of a separator character. -/
def splitChar (sep : Char) : List Char → List (List Char)
  | [] => [[]]
  | c :: rest =>
    if c = sep then [] :: splitChar sep rest
    else match splitChar sep rest with
      | [] => [[c]]
      | h :: t => (c :: h) :: t

/-- Python `s.split(sep)` for a one-character separator. -/
def pySplitOn (sep : Char) (s : String) : List String :=
  (splitChar sep s.data).map (fun l => ⟨l⟩)

/-- Python `sep.join(parts)` for a one-character separator. -/
def pyJoin (sep : Char) : List String → String
  | [] => ""
  | [x] => x
  | x :: xs => x ++ ⟨[sep]⟩ ++ pyJoin sep xs

/-- Python `s.replace("/", ".")`. -/
def pySlashToDot (s : String) : String :=
  ⟨s.data.map (fun c => if c = '/' then '.' else c)⟩

/-- Substring containment on character lists. -/
def listContainsSub (sub : List Char) : List Char → Bool
  | [] => sub.isEmpty
  | c :: rest => sub.isPrefixOf (c :: rest) || listContainsSub sub rest

/-- Python `sub in s` substring containment. -/
def pyContains (s sub : String) : Bool :=
  listContainsSub sub.data s.data

/-! ### `get_desc/from_pgv/customer_validator.py` -/

namespace CustomerValidator

/-- A value accepted by `timestamp_handle`: the `int` and `float` branches of
the Python function (the string and `datetime` branches delegate to external
protobuf/stdlib conversion and are outside the numeric core). -/
inductive TimeVal where
  | intV (n : ℤ)
  | floatV (q : ℚ)
deriving DecidableEq, Repr

/-- Embeds `timestamp_handle`: converts the input to a number of seconds on
the rational timeline (`float(v)` for ints, identity for floats). -/
def timestamp_handle : TimeVal → ℚ
  | .intV n => (n : ℚ)
  | .floatV q => q

/-- Embeds `duration_lt_validator`: raises unless `v > field_value`. -/
def duration_lt_validator (fieldName : String) (fieldValue v : ℚ) : Except String ℚ :=
  if ¬ (v > fieldValue) then
    .error (fieldName ++ " must > " ++ toString fieldValue ++ ", not " ++ toString v)
  else
    .ok v

/-- Embeds `duration_le_validator`: raises unless `v >= field_value`. -/
def duration_le_validator (fieldName : String) (fieldValue v : ℚ) : Except String ℚ :=
  if ¬ (v ≥ fieldValue) then
    .error (fieldName ++ " must >= " ++ toString fieldValue ++ ", not " ++ toString v)
  else
    .ok v

/-- Embeds `duration_gt_validator`: raises unless `v < field_value`. -/
def duration_gt_validator (fieldName : String) (fieldValue v : ℚ) : Except String ℚ :=
  if ¬ (v < fieldValue) then
    .error (fieldName ++ " must < " ++ toString fieldValue ++ ", not " ++ toString v)
  else
    .ok v

/-- Embeds `duration_ge_validator`: raises unless `v <= field_value`. -/
def duration_ge_validator (fieldName : String) (fieldValue v : ℚ) : Except String ℚ :=
  if ¬ (v ≤ fieldValue) then
    .error (fieldName ++ " must <= " ++ toString fieldValue ++ ", not " ++ toString v)
  else
    .ok v

/-- Embeds `suffix_validator`: despite its name and error message it tests
`v.startswith(field_value)`. -/
def suffix_validator (fieldName fieldValue v : String) : Except String String :=
  if ¬ (pyStartsWith v fieldValue) then
    .error (fieldName ++ " does not end with suffix " ++ fieldValue)
  else
    .ok v

/-- Embeds `prefix_validator`-style `contains_validator`: raises when the
value is not contained (kept for completeness of the registry slice). -/
def len_validator (fieldName : String) (fieldValue : ℤ) (v : String) : Except String String :=
  if (v.length : ℤ) ≠ fieldValue then
    .error (fieldName ++ " length does not equal " ++ toString fieldValue)
  else
    .ok v

/-- Embeds `timestamp_within_validator`: reads the `timestamp_gt` operand's
seconds, computes `now_time = time.time()` (passed here as an explicit
argument), and accepts only when
`(now_time - field_value) <= timestamp_handle(v) <= (now_time - field_value)`. -/
def timestamp_within_validator (fieldName : String) (nowTime fieldValue : ℚ) (v : TimeVal) :
    Except String TimeVal :=
  if ¬ ((nowTime - fieldValue ≤ timestamp_handle v) ∧
        (timestamp_handle v ≤ nowTime - fieldValue)) then
    .error (fieldName ++ " must < " ++ toString nowTime)
  else
    .ok v

end CustomerValidator

/-! ### `get_desc/from_pgv/__init__.py` -/

namespace FromPgv

/-- `FieldDescriptor.TYPE_STRING` (protobuf runtime constant). -/
def TYPE_STRING : Nat := 9

/-- `FieldDescriptor.TYPE_BYTES` (protobuf runtime constant). -/
def TYPE_BYTES : Nat := 12

/-- Embeds `type_dict`: protobuf field-type tag to PGV rule-set name. -/
def type_dict : List (Nat × String) :=
  [(1, "double"), (2, "float"), (3, "int64"), (4, "uint64"), (5, "int32"),
   (6, "fixed64"), (7, "fixed32"), (8, "bool"), (9, "string"), (12, "bytes"),
   (13, "uint32"), (14, "enum"), (15, "sfixed32"), (16, "sfixed64"),
   (17, "sint32"), (18, "sint64")]

/-- Embeds `type_not_support_dict[FieldDescriptor.TYPE_BYTES]`. -/
def type_not_support_bytes : List String := ["pattern"]

/-- Embeds `type_not_support_dict[FieldDescriptor.TYPE_STRING]`. -/
def type_not_support_string : List String := ["min_bytes", "max_bytes"]

/-- Embeds `type_not_support_dict["Any"]` (the default of the `.get`). -/
def type_not_support_any : List String := ["ignore_empty", "defined_only"]

/-- Embeds `type_not_support_dict.get(field.type, type_not_support_dict["Any"])`. -/
def notSupportList (ftype : Nat) : List String :=
  if ftype = TYPE_BYTES then type_not_support_bytes
  else if ftype = TYPE_STRING then type_not_support_string
  else type_not_support_any

/-- Embeds `column_pydantic_dict`: PGV constraint-key renaming table. -/
def column_pydantic_dict : List (String × String) :=
  [("min_len", "min_length"), ("min_bytes", "min_length"),
   ("max_len", "max_length"), ("max_bytes", "max_length"),
   ("pattern", "regex"), ("unique", "unique_items"),
   ("gte", "ge"), ("lte", "le"), ("len_bytes", "len"),
   ("required", "miss_default")]

/-- The tuple of specially handled temporal/any constraint keys at line 94. -/
def special_temporal_columns : List String :=
  ["lt", "le", "gt", "ge", "const", "in", "not_in", "lt_now", "gt_now", "within"]

/-- The tuple of compound constraint keys at line 114. -/
def special_compound_columns : List String :=
  ["in", "not_in", "len", "prefix", "suffix", "contains", "not_contains"]

/-- The per-field description record built by `option_descriptor_to_desc_dict`.
`extra` models `desc_dict["extra"]`, `validators` the names registered in
`desc_dict["validator"]` (the values are callables looked up by exactly these
names in `validate_validator_dict`), `typeOverride` the `desc_dict["type"]`
entry, `entries` the remaining direct assignments `desc_dict[column] = value`,
and `warnings` accumulates messages sent to `_logger.warning`. -/
structure PgvDescDict (V : Type) where
  extra : List (String × V)
  validators : List String
  typeOverride : Option String
  entries : List (String × V)
  warnings : List String
deriving Repr

/-- The initial `field_dict = {"extra": {}}` prepared by `get_desc_from_pgv`. -/
def emptyDescDict (V : Type) : PgvDescDict V :=
  { extra := [], validators := [], typeOverride := none, entries := [], warnings := [] }

/-- The `column_pydantic_dict` key renaming applied at lines 90-92 ("Field
Conversion"): keys present in the table are replaced, others kept. -/
def renameColumn (column : String) : String :=
  match dlookup column_pydantic_dict column with
  | some c => c
  | none => column

/-- One iteration of the column loop of `option_descriptor_to_desc_dict`.
`columnPydanticTypeDict` is `column_pydantic_type_dict` from
`from_pgv/types.py` and `replaceType` is `replace_type` from `util`; both are
imported collaborators and are passed in as parameters. -/
def optionColumnStep {V : Type} (columnPydanticTypeDict : List (String × String))
    (replaceType : V → V) (ftype : Nat) (fieldName fieldFullName typeName : String)
    (st : PgvDescDict V) (cv : String × V) : PgvDescDict V :=
  if cv.1 ∈ notSupportList ftype then
    { st with warnings := st.warnings ++
        ["protobuf_to_pydantic.get_desc.from_pgv not support `" ++ cv.1 ++
         "`, please reset " ++ fieldFullName ++ " `" ++ cv.1 ++ "` value"] }
  else
    if (typeName = "duration" ∨ typeName = "any" ∨ typeName = "timestamp") ∧
        renameColumn cv.1 ∈ special_temporal_columns then
      { st with
        extra := dset st.extra (typeName ++ "_" ++ renameColumn cv.1) (replaceType cv.2),
        validators := st.validators ++
          [fieldName ++ "_" ++ typeName ++ "_" ++ renameColumn cv.1 ++ "_validator"] }
    else if renameColumn cv.1 ∈ special_compound_columns then
      { st with
        extra := dset st.extra (renameColumn cv.1) (replaceType cv.2),
        validators := st.validators ++ [fieldName ++ "_" ++ renameColumn cv.1 ++ "_validator"] }
    else
      match dlookup columnPydanticTypeDict (renameColumn cv.1) with
      | some t => { st with typeOverride := some t }
      | none => { st with entries := dset st.entries (renameColumn cv.1) cv.2 }

/-- Embeds `option_descriptor_to_desc_dict`: folds the column loop over the
set fields of the PGV rule message (`columns` lists the `(column, value)`
pairs that pass the `_has_field` filter, in iteration order). -/
def option_descriptor_to_desc_dict {V : Type} (columnPydanticTypeDict : List (String × String))
    (replaceType : V → V) (ftype : Nat) (fieldName fieldFullName typeName : String)
    (st : PgvDescDict V) (columns : List (String × V)) : PgvDescDict V :=
  columns.foldl (optionColumnStep columnPydanticTypeDict replaceType ftype
    fieldName fieldFullName typeName) st

end FromPgv

/-! ### `gen_model.py` -/

namespace GenModel

/-- `FieldDescriptor.TYPE_MESSAGE` (protobuf runtime constant). -/
def TYPE_MESSAGE : Nat := 11

/-- `FieldDescriptor.TYPE_ENUM` (protobuf runtime constant). -/
def TYPE_ENUM : Nat := 14

/-- `FieldDescriptor.LABEL_REPEATED` (protobuf runtime constant). -/
def LABEL_REPEATED : Nat := 3

/-- Python values appearing as field defaults: `PydanticUndefined`, `None`,
and concrete scalar defaults. -/
inductive PyVal where
  | undefined
  | pyNone
  | intVal (n : Int)
  | strVal (s : String)
  | boolVal (b : Bool)
deriving DecidableEq, Repr

/-- A `default_factory` callable (e.g. `list`, `dict`, a message class). -/
inductive Factory where
  | listF
  | dictF
  | typeF (n : String)
deriving DecidableEq, Repr

/-- A protobuf `OneofDescriptor`: its short name and its full name. -/
structure OneofD where
  name : String
  fullName : String
deriving DecidableEq, Repr

/-- A protobuf `EnumDescriptor` (name, full name, declaring file, values). -/
structure EnumD where
  name : String
  fullName : String
  fileName : String
  values : List (String × Int)
deriving DecidableEq, Repr

/-- A protobuf `FieldDescriptor`.  A message-typed field references its
message type by full name into the descriptor pool (protobuf type graphs may
be cyclic, so live references are replaced by pool keys). -/
structure FieldD where
  name : String
  fullName : String
  ftype : Nat
  label : Nat
  messageTypeName : Option String
  enumType : Option EnumD
  containingOneof : Option OneofD
  defaultValue : PyVal
deriving DecidableEq, Repr

/-- A protobuf message `Descriptor`.  `nestedTypes` lists pool keys of the
nested message types in declaration order; `oneofs` pairs each oneof with the
names of its member fields (`one_of.fields`). -/
structure Descr where
  name : String
  fullName : String
  fileName : String
  fields : List FieldD
  nestedTypes : List String
  enumTypes : List EnumD
  oneofs : List (OneofD × List String)
deriving DecidableEq, Repr

/-- The descriptor pool: message full name to descriptor. -/
structure Pool where
  msgs : List (String × Descr)

/-- The `pydantic.FieldInfo` slice relevant to the compiler: the default and
the default factory handed to the generated field. -/
structure FieldInfoV where
  default : PyVal
  defaultFactory : Option Factory
deriving DecidableEq, Repr

/-- A `UseOneOfTypedDict` value: `{"required": ..., "fields": ...}`. -/
structure UseOneOf where
  required : Bool
  fields : List String
deriving DecidableEq, Repr

mutual
/-- A resolved Python field type as produced by the field handlers:
scalars from the type catalog, well-known-type targets, types imported from
generated `*_pb2` modules, postponed-annotation forward references (the
string `f'"{_class_name}"'`), synthesized `IntEnum` classes, generated
pydantic models, and the `List`/`Optional`/`Dict` wrappers. `noneType`
models the Python `None` produced by `dict.get(..., None)`. -/
inductive PyType where
  | scalar (n : String)
  | wellKnownType (n : String)
  | importedType (module n : String)
  | forwardRef (className : String)
  | enumCls (className : String) (values : List (String × Int))
  | modelType (m : PModel)
  | listOf (t : PyType)
  | optionalOf (t : PyType)
  | dictOf (args : List PyType)
  | noneType

/-- A generated pydantic model: class name, the `annotation_dict` (field name
to type and `FieldInfo`, in insertion order), the attached `_one_of_dict`,
and the names of the attached validators. -/
inductive PModel where
  | mk (className : String)
       (annotations : List (String × PyType × FieldInfoV))
       (oneOfDict : List (String × UseOneOf))
       (validators : List String)
end

/-- The class name of a generated model. -/
def PModel.className : PModel → String
  | .mk c _ _ _ => c

/-- The `annotation_dict` of a generated model. -/
def PModel.annotations : PModel → List (String × PyType × FieldInfoV)
  | .mk _ a _ _ => a

/-- The `_one_of_dict` attached to a generated model. -/
def PModel.oneOfDict : PModel → List (String × UseOneOf)
  | .mk _ _ o _ => o

/-- Embeds `setattr(pydantic_model, "_one_of_dict", one_of_dict)` together
with `CodeRefModel.set_to_model`. -/
def PModel.setOneOfDict : PModel → List (String × UseOneOf) → PModel
  | .mk c a _ v, od => .mk c a od v

/-- Entries of `nested_message_dict`: either a generated model or a
synthesized `IntEnum`; `isUse` models the mutable `_is_use` marker. -/
inductive NestedVal where
  | modelE (m : PModel)
  | enumE (className : String) (values : List (String × Int))

/-- A `nested_message_dict` value together with its `_is_use` flag. -/
structure NestedEntry where
  val : NestedVal
  isUse : Bool

/-- Converts a `nested_message_dict` entry to the field type it supplies. -/
def NestedVal.toType : NestedVal → PyType
  | .modelE m => .modelType m
  | .enumE c vs => .enumCls c vs

/-- Cache keys: `(descriptor.full_name, class_name, skip_validate_rule)`. -/
abbrev CacheKey := String × String × Bool

/-- The `create_model_cache`: key to `None` (in-progress sentinel, stored as
`Option.none`) or the completed model. -/
abbrev Cache := List (CacheKey × Option PModel)

/-- Failures propagated out of the schema walker.
`waitingToComplete` embeds `WaitingToCompleteException` (carrying the cache
key that the Python message interpolates), `createModelError` an exception
raised by pydantic's `create_model`, `missingType` the `KeyError` /
`IndexError` / attribute failures raised on malformed descriptor graphs, and
`outOfFuel` is the fuel artifact of the embedding. -/
inductive PErr where
  | waitingToComplete (key : CacheKey)
  | createModelError (msg : String)
  | missingType (msg : String)
  | outOfFuel
deriving DecidableEq, Repr

/-- Modelled from the spec: the per-field constraint metadata record returned
by the external metadata providers (`FieldInfoTypedDict`); the compiler reads
its `skip` directive (recompile the nested type rule-free), its `enable`
directive (suppress field emission), a possible type replacement produced by
the constraint merger, and the names of the validators it binds.  The
concrete parser (`field_param.py`) is an external collaborator and is not
part of the provided sources. -/
structure FieldMeta where
  skip : Bool
  enable : Bool
  typeOverride : Option PyType
  validatorNames : List String

/-- Metadata addressed to one oneof group: its `required` flag and the member
fields additionally marked proto3-optional. -/
structure OneOfMeta where
  required : Bool
  optionalFields : List String

/-- The per-message slice of `self._field_doc_dict` used by `_one_of_handle`:
the `metadata.ignored` flag and the `one_of` sub-dictionary. -/
structure MsgDocMeta where
  ignored : Bool
  oneOfDesc : List (String × OneOfMeta)

/-- Modelled from the spec: `constant.protobuf_desc_python_type_dict`, the
Type Catalog's primitive mapping (scalar tag to Python target type); the
`constant` module is not part of the provided sources.  Tags follow the
protobuf runtime: 1/2 float kinds, 8 bool, 9 string, 12 bytes, the remaining
integer kinds map to `int`. -/
def protobuf_desc_python_type_dict (t : Nat) : Option PyType :=
  if t = 1 ∨ t = 2 then some (.scalar "float")
  else if t = 8 then some (.scalar "bool")
  else if t = 9 then some (.scalar "str")
  else if t = 12 then some (.scalar "bytes")
  else if t = 3 ∨ t = 4 ∨ t = 5 ∨ t = 6 ∨ t = 7 ∨ t = 13 ∨ t = 15 ∨ t = 16 ∨
          t = 17 ∨ t = 18 then some (.scalar "int")
  else none

/-- Modelled from the spec: `protobuf_common_type_dict` from
`get_desc/from_pb_option/base.py` (not part of the provided sources), used
for the provisional `field_type_name` classification. -/
def protobuf_common_type_dict (t : Nat) : Option String :=
  dlookup FromPgv.type_dict t

/-- Modelled from the spec: `constant.message_name_type_dict`, the registry
of well-known composite types with their fixed target types (the `constant`
module is not part of the provided sources; the handler's comment lists
"Timestamp, Struct, Empty, Duration, Any support"). -/
def message_name_type_dict : List (String × PyType) :=
  [("Timestamp", .wellKnownType "datetime"),
   ("Struct", .wellKnownType "DictStrAny"),
   ("Empty", .wellKnownType "Any"),
   ("Duration", .wellKnownType "Timedelta"),
   ("Any", .wellKnownType "AnyMessage")]

/-- Modelled from the spec: `constant.message_name_default_factory_dict`, the
default-factory bindings of the well-known composite types. -/
def message_name_default_factory_dict : List (String × Factory) :=
  [("Timestamp", .typeF "datetime.now"),
   ("Struct", .dictF),
   ("Duration", .typeF "Timedelta"),
   ("Any", .typeF "AnyMessage")]

/-- The `field_doc_dict.get("skip", False)` read performed by the message
handler on the metadata record of a field (an absent record reads as
`False`). -/
def metaSkipFlag (metadata : Option FieldMeta) : Bool :=
  match metadata with
  | some meta => meta.skip
  | none => false

/-- The `field_dataclass.field_type in (AnyMessage,)` membership test of the
arbitrary-types configuration check. -/
def isAnyMessage : PyType → Bool
  | .wellKnownType n => n = "AnyMessage"
  | _ => false

/-- The compiler configuration owned by an `M2P` instance: the well-known
type registries (constructor parameters defaulting to the `constant`
tables), the metadata lookup `_get_field_info_dict_by_full_name` and the
per-message documentation dictionary (both produced by the external
metadata-extraction collaborators), the `arbitrary_types_allowed` state of
the pydantic base, and pydantic's `create_model` (an external callable that
may raise; its argument order is class name, annotations, validators,
arbitrary-types flag). -/
structure Config where
  messageTypeDict : List (String × PyType)
  messageDefaultFactoryDict : List (String × Factory)
  metadata : String → Option FieldMeta
  docDict : String → Option MsgDocMeta
  baseArbitraryTypes : Bool
  createModel : String → List (String × PyType × FieldInfoV) → List String → Bool →
    Except String PModel

/-- The `FieldDataClass` record threaded through the field handlers. -/
structure FieldSt where
  fieldName : String
  fieldType : PyType
  fieldTypeName : Option String
  fieldDefault : PyVal
  fieldDefaultFactory : Option Factory
  protobufField : FieldD

/-- Python `str.title()`: the first character of every alphabetic run is
upper-cased and the rest of the run lower-cased. -/
def pyTitleAux : Bool → List Char → List Char
  | _, [] => []
  | prevAlpha, c :: rest =>
    if c.isAlpha then
      (if prevAlpha then c.toLower else c.toUpper) :: pyTitleAux true rest
    else
      c :: pyTitleAux false rest

/-- Python `str.title()` on a whole string. -/
def pyTitle (s : String) : String :=
  ⟨pyTitleAux false s.data⟩

/-- Embeds `replace_file_name_to_class_name`: title-cases each path component
of the proto file name (extension stripped) and removes underscores. -/
def replace_file_name_to_class_name (filename : String) : String :=
  let pfx : String := String.join ((pySplitOn '/' ((pySplitOn '.' filename).headD "")).map pyTitle)
  ⟨pfx.data.filter (fun c => c != '_')⟩

/-- Embeds `".".join(column_name.split(".")[1:])` from `_one_of_handle`. -/
def dropPkg (s : String) : String :=
  pyJoin '.' ((pySplitOn '.' s).drop 1)

/-- Embeds the `"arbitrary_types_allowed" in str(e)` containment test. -/
def mentionsArbitraryTypes (e : String) : Bool :=
  pyContains e "arbitrary_types_allowed"

/-- The type of the recursive entry point `_parse_msg_to_pydantic_model`
(descriptor, `class_name`, `skip_validate_rule`), with the cache threaded
explicitly; the helper functions receive it as a parameter. -/
abbrev RecurT := Cache → Descr → String → Bool → Except PErr PModel × Cache

/-- The key/value loop of the map-entry branch of
`_protobuf_field_type_is_type_message_handler` (lines 325-332): resolves the
two fields of the synthetic `...Entry` message, recursing into the schema
walker for ordinary message types. -/
def mapKVLoop (pool : Pool) (cfg : Config) (recur : RecurT) :
    Cache → List PyType → List FieldD → Except PErr (List PyType) × Cache
  | cache, acc, [] => (.ok acc, cache)
  | cache, acc, kv :: rest =>
    match kv.messageTypeName with
    | none =>
      match protobuf_desc_python_type_dict kv.ftype with
      | none => (.error (.missingType ("KeyError: " ++ toString kv.ftype)), cache)
      | some t => mapKVLoop pool cfg recur cache (acc ++ [t]) rest
    | some mtName =>
      match dlookup pool.msgs mtName with
      | none => (.error (.missingType ("missing descriptor " ++ mtName)), cache)
      | some kvmt =>
        match dlookup cfg.messageTypeDict kvmt.name with
        | some t => mapKVLoop pool cfg recur cache (acc ++ [t]) rest
        | none =>
          match recur cache kvmt "" false with
          | (.error e, cache) => (.error e, cache)
          | (.ok m, cache) => mapKVLoop pool cfg recur cache (acc ++ [.modelType m]) rest

/-- Embeds `_protobuf_field_type_is_type_message_handler`: in priority order,
well-known type names, map-entry synthetic messages, types from
`google/protobuf/` files (imported from their `*_pb2` module), then ordinary
nested/cross-file messages.  A same-file reference is first given the
postponed-annotation forward reference `f'"{_class_name}"'`; eager recursion
is attempted except for the plain self-reference, and a
`WaitingToCompleteException` from that recursion is swallowed, keeping the
forward reference. -/
def messageTypeHandler (pool : Pool) (cfg : Config) (recur : RecurT) (cache : Cache)
    (nestedDict : List (String × NestedEntry)) (d : Descr) (fd : FieldSt) :
    Except PErr (FieldSt × List (String × NestedEntry)) × Cache :=
  match fd.protobufField.messageTypeName with
  | none => (.error (.missingType "field has no message_type"), cache)
  | some mtKey =>
    match dlookup pool.msgs mtKey with
    | none => (.error (.missingType ("missing descriptor " ++ mtKey)), cache)
    | some mt =>
      match dlookup cfg.messageTypeDict mt.name with
      | some t =>
        let fd := { fd with fieldTypeName := some (pyToLower mt.name), fieldType := t }
        let fd := match dlookup cfg.messageDefaultFactoryDict mt.name with
          | some fac => { fd with fieldDefaultFactory := some fac }
          | none => fd
        (.ok (fd, nestedDict), cache)
      | none =>
        if pyEndsWith mt.name "Entry" then
          let fd := { fd with fieldTypeName := some "map" }
          match mapKVLoop pool cfg recur cache [] mt.fields with
          | (.error e, cache) => (.error e, cache)
          | (.ok params, cache) =>
            (.ok ({ fd with fieldType := .dictOf params,
                            fieldDefaultFactory := some .dictF }, nestedDict), cache)
        else if pyStartsWith mt.fileName "google/protobuf/" then
          let module := pySlashToDot ((pySplitOn '.' mt.fileName).headD "") ++ "_pb2"
          (.ok ({ fd with fieldType := .importedType module mt.name,
                          fieldDefaultFactory := some (.typeF mt.name) }, nestedDict), cache)
        else
          let skipValidateRule := metaSkipFlag (cfg.metadata fd.protobufField.fullName)
          let full := mt.fullName
          match dlookup nestedDict full with
          | some entry =>
            if skipValidateRule then
              match (d.nestedTypes.filterMap (dlookup pool.msgs)).find?
                  (fun i => i.fullName = full) with
              | none => (.error (.missingType "IndexError"), cache)
              | some nestedMessage =>
                match recur cache nestedMessage (mt.name ++ "OnlyUseSkipRule") true with
                | (.error e, cache) => (.error e, cache)
                | (.ok m, cache) =>
                  let nestedDict := dset nestedDict (full ++ "OnlyUseSkipRule") ⟨.modelE m, true⟩
                  (.ok ({ fd with fieldType := .modelType m }, nestedDict), cache)
            else
              let nestedDict := dupdate nestedDict full (fun e => { e with isUse := true })
              (.ok ({ fd with fieldType := entry.val.toType }, nestedDict), cache)
          | none =>
            let isSamePkg := d.fileName = mt.fileName
            if ¬ isSamePkg then
              let cn := replace_file_name_to_class_name mt.fileName ++ mt.name
              match recur cache mt cn skipValidateRule with
              | (.error e, cache) => (.error e, cache)
              | (.ok m, cache) => (.ok ({ fd with fieldType := .modelType m }, nestedDict), cache)
            else
              let fd := { fd with fieldType := .forwardRef mt.name }
              let useClassName := if ¬ skipValidateRule then mt.name
                                  else mt.name ++ "OnlyUseSkipRule"
              if skipValidateRule ∨ mt.fullName ≠ d.fullName then
                match recur cache mt useClassName skipValidateRule with
                | (.ok m, cache) => (.ok ({ fd with fieldType := .modelType m }, nestedDict), cache)
                | (.error (.waitingToComplete _), cache) => (.ok (fd, nestedDict), cache)
                | (.error e, cache) => (.error e, cache)
              else
                (.ok (fd, nestedDict), cache)

/-- Embeds `_protobuf_field_type_is_type_enum_handler`. -/
def enumTypeHandler (nestedDict : List (String × NestedEntry)) (d : Descr) (fd : FieldSt) :
    Except PErr (FieldSt × List (String × NestedEntry)) :=
  let fd := { fd with fieldDefault := .intVal 0, fieldTypeName := some "enum" }
  match fd.protobufField.enumType with
  | none => .error (.missingType "field has no enum_type")
  | some e =>
    match dlookup nestedDict e.fullName with
    | some entry =>
      let nestedDict := dupdate nestedDict e.fullName (fun en => { en with isUse := true })
      .ok ({ fd with fieldType := entry.val.toType }, nestedDict)
    | none =>
      let cn := if d.fileName ≠ e.fileName
                then replace_file_name_to_class_name e.fileName ++ e.name
                else e.name
      .ok ({ fd with fieldType := .enumCls cn e.values }, nestedDict)

/-- Embeds `_protobuf_field_lable_is_label_repeated_handler`: unless the
field is backed by a map-entry synthetic message, wraps the type in
`List[...]`, installs the empty-list factory, reclassifies the type name as
"repeated" and clears any scalar default. -/
def repeatedHandler (pool : Pool) (fd : FieldSt) : FieldSt :=
  let isEntry := match fd.protobufField.messageTypeName.bind (dlookup pool.msgs) with
    | some mt => pyEndsWith mt.name "Entry"
    | none => false
  if isEntry then fd
  else
    let fd := { fd with
      fieldType := .listOf fd.fieldType,
      fieldDefaultFactory := some .listF,
      fieldTypeName := some "repeated" }
    if fd.fieldDefault ≠ .undefined then { fd with fieldDefault := .undefined } else fd

/-- Modelled from the spec: `_gen_field_info` delegates to the
constraint-metadata machinery (`FieldParamModel`, `field_param_dict_handle`,
the template and comment handlers), which are external collaborators outside
the provided sources.  The contract kept here: with no metadata, or under a
skip-validate rule, the produced `FieldInfo` carries exactly the default and
default factory already determined by type resolution; with metadata, an
`enable=False` directive suppresses the field entirely (`none`), a type
replacement from the constraint merger updates the field type, and the
names of the validators bound by the metadata are reported. -/
def genFieldInfo (cfg : Config) (fd : FieldSt) (skipValidateRule : Bool) :
    Option (FieldInfoV × FieldSt × List String) :=
  match cfg.metadata fd.protobufField.fullName, skipValidateRule with
  | some meta, false =>
    if ¬ meta.enable then none
    else
      let fd := match meta.typeOverride with
        | some t => { fd with fieldType := t }
        | none => fd
      some ({ default := fd.fieldDefault, defaultFactory := fd.fieldDefaultFactory },
            fd, meta.validatorNames)
  | _, _ =>
    some ({ default := fd.fieldDefault, defaultFactory := fd.fieldDefaultFactory }, fd, [])

/-- Embeds lines 564-567 of `_parse_msg_to_pydantic_model`: a field recorded
in `optional_dict` with `is_proto3_optional` gets its type wrapped in
`Optional[...]` and, when its dataclass default is still
`PydanticUndefined`, that default replaced by `None`. -/
def applyProto3Optional (optionalSet : List String) (fd : FieldSt) : FieldSt :=
  if fd.protobufField.fullName ∈ optionalSet then
    let fd := { fd with fieldType := .optionalOf fd.fieldType }
    if fd.fieldDefault = .undefined then { fd with fieldDefault := .pyNone } else fd
  else fd

/-- One iteration of the first loop of `_one_of_handle` (over
`descriptor.fields`): a field whose containing oneof is named `"_" + name`
adds that oneof's full name to `optional_id_set` and itself to
`optional_dict` (whose values are constantly `{"is_proto3_optional": True}`,
so the dictionary is modelled as the set of its keys). -/
def oneOfFieldStep (st : List String × List String) (f : FieldD) : List String × List String :=
  match f.containingOneof with
  | none => st
  | some o =>
    if "_" ++ f.name = o.name then
      (sadd st.1 o.fullName, sadd st.2 f.fullName)
    else
      st

/-- The `for found_column_name in [column_name, ...]` body of the second loop
of `_one_of_handle`: copies the `required` flag from the oneof metadata and
registers metadata-declared optional member fields. -/
def oneOfRequiredStep (oneOfDescDict : List (String × OneOfMeta)) (dFullName columnName : String)
    (st : List (String × UseOneOf) × List String) (found : String) :
    List (String × UseOneOf) × List String :=
  match dlookup oneOfDescDict found with
  | none => st
  | some meta =>
    (dupdate st.1 columnName (fun u => { u with required := meta.required }),
     meta.optionalFields.foldl (fun os fn => sadd os (dFullName ++ "." ++ fn)) st.2)

/-- One iteration of the second loop of `_one_of_handle` (over
`descriptor.oneofs`): oneofs recorded in `optional_id_set` are skipped
entirely; the rest get a `UseOneOfTypedDict` entry, their metadata applied,
and their member field names collected. -/
def oneOfStep (oneOfDescDict : List (String × OneOfMeta)) (dFullName : String)
    (idSet : List String) (st : List (String × UseOneOf) × List String)
    (ofs : OneofD × List String) : List (String × UseOneOf) × List String :=
  let columnName := ofs.1.fullName
  if columnName ∈ idSet then st
  else
    let st := if (dlookup st.1 columnName).isNone
              then (dset st.1 columnName ⟨false, []⟩, st.2) else st
    let st := [columnName, dropPkg columnName].foldl
      (oneOfRequiredStep oneOfDescDict dFullName columnName) st
    (ofs.2.foldl (fun o fn => dupdate o columnName
        (fun u => { u with fields := sadd u.fields fn })) st.1,
     st.2)

/-- Embeds `_one_of_handle`: returns `(one_of_dict, optional_dict)` (the
latter as the set of field full names marked proto3-optional). -/
def oneOfHandle (cfg : Config) (d : Descr) : List (String × UseOneOf) × List String :=
  let descMeta := cfg.docDict d.name
  let ignoreParseRule := match descMeta with
    | some m => m.ignored
    | none => false
  let oneOfDescDict := if ignoreParseRule then []
    else match descMeta with
      | some m => m.oneOfDesc
      | none => []
  let fieldSt := d.fields.foldl oneOfFieldStep ([], [])
  d.oneofs.foldl (oneOfStep oneOfDescDict d.fullName fieldSt.1) ([], fieldSt.2)

/-- The message loop of `get_nested_message_dict_by_message`: nested types
whose name ends in `Entry` are skipped, the rest are compiled and recorded
under their full name with `_is_use = False`. -/
def nestedMsgLoop (pool : Pool) (recur : RecurT) :
    Cache → List (String × NestedEntry) → List String →
    Except PErr (List (String × NestedEntry)) × Cache
  | cache, acc, [] => (.ok acc, cache)
  | cache, acc, key :: rest =>
    match dlookup pool.msgs key with
    | none => (.error (.missingType ("missing descriptor " ++ key)), cache)
    | some msg =>
      if pyEndsWith msg.name "Entry" then
        nestedMsgLoop pool recur cache acc rest
      else
        match recur cache msg "" false with
        | (.error e, cache) => (.error e, cache)
        | (.ok m, cache) =>
          nestedMsgLoop pool recur cache (dset acc msg.fullName ⟨.modelE m, false⟩) rest

/-- Embeds `get_nested_message_dict_by_message`: compiles the nested message
types, then synthesizes `IntEnum` entries for the nested enum types. -/
def getNestedMessageDict (pool : Pool) (recur : RecurT) (cache : Cache) (d : Descr) :
    Except PErr (List (String × NestedEntry)) × Cache :=
  match nestedMsgLoop pool recur cache [] d.nestedTypes with
  | (.error e, cache) => (.error e, cache)
  | (.ok acc, cache) =>
    (.ok (d.enumTypes.foldl
      (fun acc e => dset acc e.fullName ⟨.enumE e.name e.values, false⟩) acc), cache)

/-- The `FieldDataClass` constructed at the top of the field loop (lines
540-550): provisional scalar type from the Type Catalog, provisional type
name, `PydanticUndefined` default, no default factory. -/
def initFieldSt (pf : FieldD) : FieldSt :=
  { fieldName := pf.name,
    fieldType := (protobuf_desc_python_type_dict pf.ftype).getD .noneType,
    fieldTypeName := protobuf_common_type_dict pf.ftype,
    fieldDefault := .undefined,
    fieldDefaultFactory := none,
    protobufField := pf }

/-- The mutable state accumulated by the field loop of
`_parse_msg_to_pydantic_model`: `annotation_dict`, the shared `validators`
dictionary (as validator names), the pending
`pydantic_model_config_dict["arbitrary_types_allowed"]` flag, and
`nested_message_dict` (which the skip-rule branch extends). -/
structure LoopAcc where
  annotations : List (String × PyType × FieldInfoV)
  validators : List String
  configFlag : Bool
  nestedDict : List (String × NestedEntry)

/-- One iteration of the field loop of `_parse_msg_to_pydantic_model`
(lines 539-574): builds the `FieldDataClass`, dispatches on the field kind,
applies the repeated-label handler, generates the `FieldInfo` (skipping the
field when it returns nothing), applies the proto3-optional wrap, records
the annotation and updates the arbitrary-types flag. -/
def fieldStep (pool : Pool) (cfg : Config) (recur : RecurT) (d : Descr)
    (optionalSet : List String) (skipValidateRule : Bool) (cache : Cache)
    (acc : LoopAcc) (pf : FieldD) : Except PErr LoopAcc × Cache :=
  let fd : FieldSt := initFieldSt pf
  let dispatched : Except PErr (FieldSt × List (String × NestedEntry)) × Cache :=
    if pf.ftype = TYPE_MESSAGE then
      messageTypeHandler pool cfg recur cache acc.nestedDict d fd
    else if pf.ftype = TYPE_ENUM then
      (enumTypeHandler acc.nestedDict d fd, cache)
    else
      (.ok ({ fd with fieldDefault := pf.defaultValue }, acc.nestedDict), cache)
  match dispatched with
  | (.error e, cache) => (.error e, cache)
  | (.ok (fd, nestedDict), cache) =>
    let fd := if pf.label = LABEL_REPEATED then repeatedHandler pool fd else fd
    match genFieldInfo cfg fd skipValidateRule with
    | none => (.ok { acc with nestedDict := nestedDict }, cache)
    | some (fieldInfo, fd, vnames) =>
      let fd := applyProto3Optional optionalSet fd
      let configFlag := acc.configFlag ||
        (isAnyMessage fd.fieldType && ! cfg.baseArbitraryTypes)
      (.ok { annotations := dset acc.annotations fd.fieldName (fd.fieldType, fieldInfo),
             validators := acc.validators ++ vnames,
             configFlag := configFlag,
             nestedDict := nestedDict }, cache)

/-- The field loop of `_parse_msg_to_pydantic_model`, in declaration order,
with message-level failures propagating immediately. -/
def fieldLoop (pool : Pool) (cfg : Config) (recur : RecurT) (d : Descr)
    (optionalSet : List String) (skipValidateRule : Bool) :
    Cache → LoopAcc → List FieldD → Except PErr LoopAcc × Cache
  | cache, acc, [] => (.ok acc, cache)
  | cache, acc, pf :: rest =>
    match fieldStep pool cfg recur d optionalSet skipValidateRule cache acc pf with
    | (.error e, cache) => (.error e, cache)
    | (.ok acc, cache) => fieldLoop pool cfg recur d optionalSet skipValidateRule cache acc rest

/-- Embeds `M2P._parse_msg_to_pydantic_model`.  The cache entry protocol is
verbatim from lines 523-530: a present-but-`None` entry raises
`WaitingToCompleteException`, a completed entry is returned as-is, and an
absent entry is first set to the `None` sentinel.  Any error raised by the
remainder of the body propagates with the cache as it stands at that point
(the Python code installs no cleanup handler).  The fuel argument only bounds
the recursion depth of the embedding. -/
def parseMsg (pool : Pool) (cfg : Config) : Nat → RecurT
  | 0 => fun cache _ _ _ => (.error .outOfFuel, cache)
  | fuel + 1 => fun cache d className0 skipValidateRule =>
    let className := if className0 = "" then d.name else className0
    let messageKey : CacheKey := (d.fullName, className, skipValidateRule)
    match dlookup cache messageKey with
    | some none => (.error (.waitingToComplete messageKey), cache)
    | some (some m) => (.ok m, cache)
    | none =>
      let cache := dset cache messageKey none
      match getNestedMessageDict pool (parseMsg pool cfg fuel) cache d with
      | (.error e, cache) => (.error e, cache)
      | (.ok nestedDict, cache) =>
        let odPair := oneOfHandle cfg d
        match fieldLoop pool cfg (parseMsg pool cfg fuel) d odPair.2 skipValidateRule cache
            { annotations := [], validators := [], configFlag := false,
              nestedDict := nestedDict } d.fields with
        | (.error e, cache) => (.error e, cache)
        | (.ok acc, cache) =>
          let validators := if odPair.1.isEmpty then acc.validators
            else acc.validators ++ ["one_of_validator"]
          match cfg.createModel className acc.annotations validators acc.configFlag with
          | .ok pm =>
            let pm := pm.setOneOfDict odPair.1
            (.ok pm, dset cache messageKey (some pm))
          | .error e =>
            if mentionsArbitraryTypes e then
              match cfg.createModel className acc.annotations validators true with
              | .ok pm =>
                let pm := pm.setOneOfDict odPair.1
                (.ok pm, dset cache messageKey (some pm))
              | .error e2 => (.error (.createModelError e2), cache)
            else
              (.error (.createModelError e), cache)

/-- Embeds the cache selection `create_model_cache or _create_model_cache`
of `M2P.__init__`: a missing argument — and equally a provided but empty
(falsy) dictionary — selects the shared module-level `_create_model_cache`. -/
def m2pUsesGlobalCache (provided : Option Cache) : Bool :=
  match provided with
  | none => true
  | some c => c.isEmpty

/-- The cache an `M2P` invocation actually works on. -/
def m2pChooseCache (provided : Option Cache) (globalCache : Cache) : Cache :=
  if m2pUsesGlobalCache provided then globalCache else provided.getD []

/-- Embeds `clear_create_model_cache`, which empties the module-level cache. -/
def clear_create_model_cache (_globalCache : Cache) : Cache := []

/-- One compiler invocation `M2P(msg, ..., create_model_cache=provided)` with
the module-level cache in state `globalCache`: returns the generated model
(or the propagated failure), the final state of the cache the invocation
used, and the final state of the module-level cache (mutated in place
exactly when the invocation aliased it). -/
def m2pRun (pool : Pool) (cfg : Config) (fuel : Nat) (d : Descr)
    (provided : Option Cache) (globalCache : Cache) :
    Except PErr PModel × Cache × Cache :=
  let eff := m2pChooseCache provided globalCache
  let r := parseMsg pool cfg fuel eff d "" false
  (r.1, r.2, if m2pUsesGlobalCache provided then r.2 else globalCache)

/-! #### Concrete instances used to evaluate the embedding -/

/-- A `create_model` callable that succeeds on any well-formed input (the
behaviour of pydantic's `create_model` on unproblematic annotations). -/
def okCreateModel : String → List (String × PyType × FieldInfoV) → List String → Bool →
    Except String PModel :=
  fun cn ann vals _ => .ok (.mk cn ann [] vals)

/-- A `create_model` callable that raises an exception unrelated to
`arbitrary_types_allowed`. -/
def boomCreateModel : String → List (String × PyType × FieldInfoV) → List String → Bool →
    Except String PModel :=
  fun _ _ _ _ => .error "boom"

/-- A configuration with the default type registries, no constraint metadata
and a succeeding `create_model`. -/
def baseConfig : Config :=
  { messageTypeDict := message_name_type_dict,
    messageDefaultFactoryDict := message_name_default_factory_dict,
    metadata := fun _ => none,
    docDict := fun _ => none,
    baseArbitraryTypes := false,
    createModel := okCreateModel }

/-- `baseConfig` with a failing `create_model`. -/
def failingConfig : Config :=
  { messageTypeDict := message_name_type_dict,
    messageDefaultFactoryDict := message_name_default_factory_dict,
    metadata := fun _ => none,
    docDict := fun _ => none,
    baseArbitraryTypes := false,
    createModel := boomCreateModel }

/-- A plain message `p.A` with no fields. -/
def descrA : Descr :=
  { name := "A", fullName := "p.A", fileName := "p.proto", fields := [],
    nestedTypes := [], enumTypes := [], oneofs := [] }

/-- A pool containing only `p.A`. -/
def poolA : Pool := ⟨[("p.A", descrA)]⟩

/-- The model generated for `p.A` by `okCreateModel`. -/
def modelA : PModel := .mk "A" [] [] []

/-- A user-defined message whose short name collides with the well-known
`Duration` registry entry, carrying one self-referential field. -/
def selfDurationField : FieldD :=
  { name := "next", fullName := "m.Duration.next", ftype := 11, label := 1,
    messageTypeName := some "m.Duration", enumType := none, containingOneof := none,
    defaultValue := .undefined }

/-- The descriptor of the self-referential user message named `Duration`. -/
def selfDurationDescr : Descr :=
  { name := "Duration", fullName := "m.Duration", fileName := "m.proto",
    fields := [selfDurationField], nestedTypes := [], enumTypes := [], oneofs := [] }

/-- A pool containing only `m.Duration`. -/
def poolDuration : Pool := ⟨[("m.Duration", selfDurationDescr)]⟩

/-- A recursion stub for direct invocations of the message handler. -/
def recurStub : RecurT := fun cache _ _ _ => (.error .outOfFuel, cache)

/-- A self-referential message `q.Node` whose name matches no well-known
registry entry. -/
def selfNodeField : FieldD :=
  { name := "child", fullName := "q.Node.child", ftype := 11, label := 1,
    messageTypeName := some "q.Node", enumType := none, containingOneof := none,
    defaultValue := .undefined }

/-- The descriptor of the self-referential message `q.Node`. -/
def selfNodeDescr : Descr :=
  { name := "Node", fullName := "q.Node", fileName := "q.proto",
    fields := [selfNodeField], nestedTypes := [], enumTypes := [], oneofs := [] }

/-- A pool containing only `q.Node`. -/
def poolNode : Pool := ⟨[("q.Node", selfNodeDescr)]⟩

/-- A message `q.M` in file `q.proto` with a field referencing the sibling
message `q.N` of the same file (used for the cyclic-reference handling). -/
def siblingField : FieldD :=
  { name := "n", fullName := "q.M.n", ftype := 11, label := 1,
    messageTypeName := some "q.N", enumType := none, containingOneof := none,
    defaultValue := .undefined }

/-- The descriptor of `q.M`. -/
def siblingParentDescr : Descr :=
  { name := "M", fullName := "q.M", fileName := "q.proto", fields := [siblingField],
    nestedTypes := [], enumTypes := [], oneofs := [] }

/-- The descriptor of `q.N`. -/
def siblingChildDescr : Descr :=
  { name := "N", fullName := "q.N", fileName := "q.proto", fields := [],
    nestedTypes := [], enumTypes := [], oneofs := [] }

/-- A pool containing `q.M` and `q.N`. -/
def poolSibling : Pool := ⟨[("q.M", siblingParentDescr), ("q.N", siblingChildDescr)]⟩

/-- A recursion stub reporting `q.N` as currently being generated. -/
def recurWaiting : RecurT := fun cache _ _ _ =>
  (.error (.waitingToComplete ("q.N", "N", false)), cache)

/-- The proto3-optional synthetic oneof `_x` of message `p.M`. -/
def optOneof : OneofD := { name := "_x", fullName := "p.M._x" }

/-- The optional field `x` of message `p.M`, member of the `_x` oneof. -/
def optField : FieldD :=
  { name := "x", fullName := "p.M.x", ftype := 9, label := 1,
    messageTypeName := none, enumType := none, containingOneof := some optOneof,
    defaultValue := .strVal "" }

/-- The message `p.M` holding the proto3-optional field `x`. -/
def optDescr : Descr :=
  { name := "M", fullName := "p.M", fileName := "p.proto", fields := [optField],
    nestedTypes := [], enumTypes := [], oneofs := [(optOneof, ["x"])] }

end GenModel

/-! ## Claim theorems -/

/-- Claim C8: the `within` temporal-range validator derives both its lower
and its upper acceptance bound from the same single configured operand
(`now_time - field_value`), so it accepts exactly the single point
`now - operand`: every input whose converted timestamp differs from it
raises a validation error, and no interval of positive width is ever
accepted. -/
theorem timestamp_within_single_point (fieldName : String) (nowTime fieldValue : ℚ)
    (v : CustomerValidator.TimeVal) :
    (CustomerValidator.timestamp_within_validator fieldName nowTime fieldValue v = .ok v ↔
      CustomerValidator.timestamp_handle v = nowTime - fieldValue)
  ∧ (CustomerValidator.timestamp_handle v ≠ nowTime - fieldValue →
      CustomerValidator.timestamp_within_validator fieldName nowTime fieldValue v
        = .error (fieldName ++ " must < " ++ toString nowTime)) := by
  unfold CustomerValidator.timestamp_within_validator
  by_cases h : (nowTime - fieldValue ≤ CustomerValidator.timestamp_handle v) ∧
      (CustomerValidator.timestamp_handle v ≤ nowTime - fieldValue)
  · rw [if_neg (not_not_intro h)]
    constructor
    · constructor
      · intro _
        exact le_antisymm h.2 h.1
      · intro _
        rfl
    · intro hne
      exact absurd (le_antisymm h.2 h.1) hne
  · rw [if_pos h]
    constructor
    · constructor
      · intro hc
        exact absurd hc (by simp)
      · intro heq
        exact absurd ⟨le_of_eq heq.symm, le_of_eq heq⟩ h
    · intro _
      rfl

/-- Witness for C8 at `now = 10`, operand `3`, input `5`: the converted
timestamp differs from `10 - 3` and the validator raises. -/
theorem timestamp_within_single_point_witness :
    CustomerValidator.timestamp_handle (.intV 5) ≠ (10 : ℚ) - 3 ∧
    CustomerValidator.timestamp_within_validator "t" 10 3 (.intV 5)
      = .error ("t" ++ " must < " ++ toString (10 : ℚ)) :=
  ⟨by norm_num [CustomerValidator.timestamp_handle],
   (timestamp_within_single_point "t" 10 3 (.intV 5)).2
     (by norm_num [CustomerValidator.timestamp_handle])⟩

/-- Claim C9: the duration `lt` validator accepts exactly the values
`v > b` and raises exactly when `v ≤ b` — the reverse direction of the
comparison its key names — and the duration `gt` validator symmetrically
accepts exactly the values `v < b`. -/
theorem duration_lt_gt_reversed (fieldName : String) (b v : ℚ) :
    (CustomerValidator.duration_lt_validator fieldName b v = .ok v ↔ v > b)
  ∧ (v ≤ b → CustomerValidator.duration_lt_validator fieldName b v
      = .error (fieldName ++ " must > " ++ toString b ++ ", not " ++ toString v))
  ∧ (CustomerValidator.duration_gt_validator fieldName b v = .ok v ↔ v < b) := by
  refine ⟨?_, ?_, ?_⟩
  · unfold CustomerValidator.duration_lt_validator
    by_cases h : v > b
    · rw [if_neg (not_not_intro h)]
      simp [h]
    · rw [if_pos h]
      simp [h]
  · intro hle
    unfold CustomerValidator.duration_lt_validator
    rw [if_pos (not_lt.mpr hle)]
  · unfold CustomerValidator.duration_gt_validator
    by_cases h : v < b
    · rw [if_neg (not_not_intro h)]
      simp [h]
    · rw [if_pos h]
      simp [h]

/-- Witness for C9 at `b = 3`, `v = 2`: `2 ≤ 3` and the `lt` validator
raises (it demands `v > 3`). -/
theorem duration_lt_gt_reversed_witness :
    (2 : ℚ) ≤ 3 ∧
    CustomerValidator.duration_lt_validator "d" 3 2
      = .error ("d" ++ " must > " ++ toString (3 : ℚ) ++ ", not " ++ toString (2 : ℚ)) :=
  ⟨by norm_num, (duration_lt_gt_reversed "d" 3 2).2.1 (by norm_num)⟩

/-- Claim C10: the suffix validator tests `v.startswith(s)` — it accepts
exactly the values beginning with the configured operand and never examines
the end of the string — so a value that ends with the operand but does not
begin with it is rejected with a `ValueError`. -/
theorem suffix_validator_checks_start (fieldName fieldValue v : String) :
    (CustomerValidator.suffix_validator fieldName fieldValue v = .ok v ↔
      pyStartsWith v fieldValue = true)
  ∧ (pyEndsWith v fieldValue = true → pyStartsWith v fieldValue = false →
      CustomerValidator.suffix_validator fieldName fieldValue v
        = .error (fieldName ++ " does not end with suffix " ++ fieldValue)) := by
  constructor
  · unfold CustomerValidator.suffix_validator
    by_cases h : pyStartsWith v fieldValue = true
    · rw [if_neg (not_not_intro h)]
      simp [h]
    · rw [if_pos h]
      simp [h]
  · intro _hends hstarts
    unfold CustomerValidator.suffix_validator
    rw [if_pos (by simp [hstarts])]

/-- Witness for C10 at `s = "bc"`, `v = "abc"`: the value ends with the
operand, does not start with it, and is rejected. -/
theorem suffix_validator_checks_start_witness :
    pyEndsWith "abc" "bc" = true ∧ pyStartsWith "abc" "bc" = false ∧
    CustomerValidator.suffix_validator "f" "bc" "abc"
      = .error ("f" ++ " does not end with suffix " ++ "bc") :=
  ⟨by decide, by decide,
   (suffix_validator_checks_start "f" "bc" "abc").2 (by decide) (by decide)⟩

namespace FromPgv

/-- Two desc-dict records that agree on everything except the warning
channel. -/
def SameCore {V : Type} (s t : PgvDescDict V) : Prop :=
  s.extra = t.extra ∧ s.validators = t.validators ∧ s.typeOverride = t.typeOverride ∧
    s.entries = t.entries

theorem sameCore_refl {V : Type} (s : PgvDescDict V) : SameCore s s :=
  ⟨rfl, rfl, rfl, rfl⟩

theorem sameCore_trans {V : Type} {a b c : PgvDescDict V}
    (h1 : SameCore a b) (h2 : SameCore b c) : SameCore a c :=
  ⟨h1.1.trans h2.1, h1.2.1.trans h2.2.1, h1.2.2.1.trans h2.2.2.1, h1.2.2.2.trans h2.2.2.2⟩

theorem optionColumnStep_congr {V : Type} (cptd : List (String × String)) (rt : V → V)
    (ft : Nat) (fn ffn tn : String) (s t : PgvDescDict V) (cv : String × V)
    (h : SameCore s t) :
    SameCore (optionColumnStep cptd rt ft fn ffn tn s cv)
             (optionColumnStep cptd rt ft fn ffn tn t cv) := by
  obtain ⟨h1, h2, h3, h4⟩ := h
  unfold optionColumnStep
  by_cases hA : cv.1 ∈ notSupportList ft
  · rw [if_pos hA, if_pos hA]
    exact ⟨h1, h2, h3, h4⟩
  · rw [if_neg hA, if_neg hA]
    by_cases hB : (tn = "duration" ∨ tn = "any" ∨ tn = "timestamp") ∧
        renameColumn cv.1 ∈ special_temporal_columns
    · rw [if_pos hB, if_pos hB]
      exact ⟨by rw [h1], by rw [h2], h3, h4⟩
    · rw [if_neg hB, if_neg hB]
      by_cases hC : renameColumn cv.1 ∈ special_compound_columns
      · rw [if_pos hC, if_pos hC]
        exact ⟨by rw [h1], by rw [h2], h3, h4⟩
      · rw [if_neg hC, if_neg hC]
        cases hD : dlookup cptd (renameColumn cv.1) with
        | some u => exact ⟨h1, h2, rfl, h4⟩
        | none => exact ⟨h1, h2, h3, by rw [h4]⟩

theorem foldl_step_congr {V : Type} (cptd : List (String × String)) (rt : V → V)
    (ft : Nat) (fn ffn tn : String) (l : List (String × V)) :
    ∀ s t : PgvDescDict V, SameCore s t →
      SameCore (l.foldl (optionColumnStep cptd rt ft fn ffn tn) s)
               (l.foldl (optionColumnStep cptd rt ft fn ffn tn) t) := by
  induction l with
  | nil => intro s t h; exact h
  | cons cv rest ih =>
    intro s t h
    exact ih _ _ (optionColumnStep_congr cptd rt ft fn ffn tn s t cv h)

theorem optionColumnStep_pattern_bytes {V : Type} (cptd : List (String × String)) (rt : V → V)
    (fn ffn tn : String) (s : PgvDescDict V) (v : V) :
    optionColumnStep cptd rt TYPE_BYTES fn ffn tn s ("pattern", v)
      = { s with warnings := s.warnings ++
          ["protobuf_to_pydantic.get_desc.from_pgv not support `" ++ "pattern" ++
           "`, please reset " ++ ffn ++ " `" ++ "pattern" ++ "` value"] } := by
  have hp : ("pattern" : String) ∈ notSupportList TYPE_BYTES := by decide
  simp [optionColumnStep, hp]

theorem renameColumn_ne_pattern (c : String) (hc : c ≠ "pattern") :
    renameColumn c ≠ "pattern" := by
  intro he
  unfold renameColumn at he
  cases hr : dlookup column_pydantic_dict c with
  | none =>
    rw [hr] at he
    exact hc he
  | some r =>
    rw [hr] at he
    simp only [] at he
    have hmem := dlookup_mem_values _ _ _ hr
    rw [he] at hmem
    exact absurd hmem (by decide)

theorem optionColumnStep_no_pattern {V : Type} (cptd : List (String × String)) (rt : V → V)
    (fn ffn : String) (s : PgvDescDict V) (cv : String × V)
    (h1 : dlookup s.entries "pattern" = none) (h2 : dlookup s.extra "pattern" = none) :
    dlookup (optionColumnStep cptd rt TYPE_BYTES fn ffn "bytes" s cv).entries "pattern" = none
  ∧ dlookup (optionColumnStep cptd rt TYPE_BYTES fn ffn "bytes" s cv).extra "pattern" = none := by
  unfold optionColumnStep
  by_cases hA : cv.1 ∈ notSupportList TYPE_BYTES
  · rw [if_pos hA]
    exact ⟨h1, h2⟩
  · have hcv : cv.1 ≠ "pattern" := by
      intro he
      exact hA (by rw [he]; decide)
    have hrn : renameColumn cv.1 ≠ "pattern" := renameColumn_ne_pattern cv.1 hcv
    rw [if_neg hA]
    have hB : ¬ ((("bytes" : String) = "duration" ∨ ("bytes" : String) = "any" ∨
        ("bytes" : String) = "timestamp") ∧ renameColumn cv.1 ∈ special_temporal_columns) := by
      intro hx
      rcases hx.1 with h | h | h <;> exact absurd h (by decide)
    rw [if_neg hB]
    by_cases hC : renameColumn cv.1 ∈ special_compound_columns
    · rw [if_pos hC]
      refine ⟨h1, ?_⟩
      show dlookup (dset s.extra (renameColumn cv.1) (rt cv.2)) "pattern" = none
      rw [dlookup_dset_ne _ _ _ _ (Ne.symm hrn)]
      exact h2
    · rw [if_neg hC]
      cases hD : dlookup cptd (renameColumn cv.1) with
      | some u => exact ⟨h1, h2⟩
      | none =>
        refine ⟨?_, h2⟩
        show dlookup (dset s.entries (renameColumn cv.1) cv.2) "pattern" = none
        rw [dlookup_dset_ne _ _ _ _ (Ne.symm hrn)]
        exact h1

theorem foldl_step_no_pattern {V : Type} (cptd : List (String × String)) (rt : V → V)
    (fn ffn : String) (l : List (String × V)) :
    ∀ s : PgvDescDict V, dlookup s.entries "pattern" = none →
      dlookup s.extra "pattern" = none →
      dlookup ((l.foldl (optionColumnStep cptd rt TYPE_BYTES fn ffn "bytes") s)).entries
        "pattern" = none
    ∧ dlookup ((l.foldl (optionColumnStep cptd rt TYPE_BYTES fn ffn "bytes") s)).extra
        "pattern" = none := by
  induction l with
  | nil => intro s h1 h2; exact ⟨h1, h2⟩
  | cons cv rest ih =>
    intro s h1 h2
    have hs := optionColumnStep_no_pattern cptd rt fn ffn s cv h1 h2
    exact ih _ hs.1 hs.2

theorem optionColumnStep_warnings_ne_nil {V : Type} (cptd : List (String × String)) (rt : V → V)
    (ft : Nat) (fn ffn tn : String) (s : PgvDescDict V) (cv : String × V)
    (hw : s.warnings ≠ []) :
    (optionColumnStep cptd rt ft fn ffn tn s cv).warnings ≠ [] := by
  unfold optionColumnStep
  by_cases hA : cv.1 ∈ notSupportList ft
  · rw [if_pos hA]
    simp [hw]
  · rw [if_neg hA]
    by_cases hB : (tn = "duration" ∨ tn = "any" ∨ tn = "timestamp") ∧
        renameColumn cv.1 ∈ special_temporal_columns
    · rw [if_pos hB]
      exact hw
    · rw [if_neg hB]
      by_cases hC : renameColumn cv.1 ∈ special_compound_columns
      · rw [if_pos hC]
        exact hw
      · rw [if_neg hC]
        cases hD : dlookup cptd (renameColumn cv.1) with
        | some u => exact hw
        | none => exact hw

theorem foldl_step_warnings_ne_nil {V : Type} (cptd : List (String × String)) (rt : V → V)
    (ft : Nat) (fn ffn tn : String) (l : List (String × V)) :
    ∀ s : PgvDescDict V, s.warnings ≠ [] →
      ((l.foldl (optionColumnStep cptd rt ft fn ffn tn) s)).warnings ≠ [] := by
  induction l with
  | nil => intro s hw; exact hw
  | cons cv rest ih =>
    intro s hw
    exact ih _ (optionColumnStep_warnings_ne_nil cptd rt ft fn ffn tn s cv hw)

theorem foldl_step_warns {V : Type} (cptd : List (String × String)) (rt : V → V)
    (fn ffn tn : String) (l : List (String × V)) :
    ∀ s : PgvDescDict V, "pattern" ∈ l.map Prod.fst →
      ((l.foldl (optionColumnStep cptd rt TYPE_BYTES fn ffn tn) s)).warnings ≠ [] := by
  induction l with
  | nil => intro s h; simp at h
  | cons cv rest ih =>
    intro s h
    by_cases hc : cv.1 = "pattern"
    · obtain ⟨c1, v1⟩ := cv
      simp only at hc
      subst hc
      rw [List.foldl_cons, optionColumnStep_pattern_bytes]
      exact foldl_step_warnings_ne_nil cptd rt TYPE_BYTES fn ffn tn rest _ (by simp)
    · rw [List.foldl_cons]
      apply ih
      rcases List.mem_cons.mp h with he | hm
      · exact absurd he.symm hc
      · exact hm

theorem foldl_step_skips_pattern {V : Type} (cptd : List (String × String)) (rt : V → V)
    (fn ffn tn : String) (l : List (String × V)) :
    ∀ s : PgvDescDict V,
      SameCore (l.foldl (optionColumnStep cptd rt TYPE_BYTES fn ffn tn) s)
        ((l.filter (fun cv => cv.1 != "pattern")).foldl
          (optionColumnStep cptd rt TYPE_BYTES fn ffn tn) s) := by
  induction l with
  | nil => intro s; exact sameCore_refl _
  | cons cv rest ih =>
    intro s
    by_cases hc : cv.1 = "pattern"
    · have hfilter : (cv :: rest).filter (fun cv => cv.1 != "pattern")
          = rest.filter (fun cv => cv.1 != "pattern") := by
        simp [List.filter, hc]
      rw [hfilter, List.foldl_cons]
      refine sameCore_trans (foldl_step_congr cptd rt TYPE_BYTES fn ffn tn rest _ _ ?_) (ih s)
      obtain ⟨c1, v1⟩ := cv
      simp only at hc
      subst hc
      rw [optionColumnStep_pattern_bytes]
      exact ⟨rfl, rfl, rfl, rfl⟩
    · have hfilter : (cv :: rest).filter (fun cv => cv.1 != "pattern")
          = cv :: rest.filter (fun cv => cv.1 != "pattern") := by
        simp [List.filter_cons, bne_iff_ne, hc]
      rw [hfilter, List.foldl_cons, List.foldl_cons]
      exact ih (optionColumnStep cptd rt TYPE_BYTES fn ffn tn s cv)

end FromPgv

/-- Claim C7: for a byte-sequence field (`TYPE_BYTES`, PGV rule set name
"bytes") whose raw constraint metadata contains a `pattern` key, the
resulting per-field constraint record contains that key neither among its
direct entries nor in its extra metadata, a warning diagnostic is emitted,
and the remaining columns are processed exactly as if the `pattern` key were
absent (no terminal error: the translation is total and the record's
non-warning content equals that of the filtered input). -/
theorem bytes_pattern_dropped {V : Type} (cptd : List (String × String)) (rt : V → V)
    (fieldName fieldFullName : String) (columns : List (String × V))
    (h : "pattern" ∈ columns.map Prod.fst) :
    dlookup (FromPgv.option_descriptor_to_desc_dict cptd rt FromPgv.TYPE_BYTES fieldName
        fieldFullName "bytes" (FromPgv.emptyDescDict V) columns).entries "pattern" = none
  ∧ dlookup (FromPgv.option_descriptor_to_desc_dict cptd rt FromPgv.TYPE_BYTES fieldName
        fieldFullName "bytes" (FromPgv.emptyDescDict V) columns).extra "pattern" = none
  ∧ (FromPgv.option_descriptor_to_desc_dict cptd rt FromPgv.TYPE_BYTES fieldName
        fieldFullName "bytes" (FromPgv.emptyDescDict V) columns).warnings ≠ []
  ∧ FromPgv.SameCore
      (FromPgv.option_descriptor_to_desc_dict cptd rt FromPgv.TYPE_BYTES fieldName
        fieldFullName "bytes" (FromPgv.emptyDescDict V) columns)
      (FromPgv.option_descriptor_to_desc_dict cptd rt FromPgv.TYPE_BYTES fieldName
        fieldFullName "bytes" (FromPgv.emptyDescDict V)
        (columns.filter (fun cv => cv.1 != "pattern"))) := by
  have hk := FromPgv.foldl_step_no_pattern cptd rt fieldName fieldFullName columns
    (FromPgv.emptyDescDict V) rfl rfl
  exact ⟨hk.1, hk.2,
    FromPgv.foldl_step_warns cptd rt fieldName fieldFullName "bytes" columns
      (FromPgv.emptyDescDict V) h,
    FromPgv.foldl_step_skips_pattern cptd rt fieldName fieldFullName "bytes" columns
      (FromPgv.emptyDescDict V)⟩

/-- Witness for C7: metadata `[("pattern", true), ("min_len", false)]` on a
bytes field drops the `pattern` key with a diagnostic and still processes
`min_len`. -/
theorem bytes_pattern_dropped_witness :
    ("pattern" ∈ ([("pattern", true), ("min_len", false)] : List (String × Bool)).map Prod.fst)
  ∧ dlookup (FromPgv.option_descriptor_to_desc_dict [] id FromPgv.TYPE_BYTES "f"
      "p.f" "bytes" (FromPgv.emptyDescDict Bool)
      [("pattern", true), ("min_len", false)]).entries "pattern" = none :=
  ⟨by decide,
   (bytes_pattern_dropped [] id "f" "p.f" [("pattern", true), ("min_len", false)]
     (by decide)).1⟩

namespace GenModel

theorem parseMsg_completed_hit (pool : Pool) (cfg : Config) (fuel : Nat) (cache : Cache)
    (d : Descr) (cn0 : String) (skip : Bool) (m : PModel)
    (h : dlookup cache (d.fullName, (if cn0 = "" then d.name else cn0), skip)
        = some (some m)) :
    parseMsg pool cfg (fuel + 1) cache d cn0 skip = (.ok m, cache) := by
  simp only [parseMsg]
  rw [h]

theorem parseMsg_sentinel_hit (pool : Pool) (cfg : Config) (fuel : Nat) (cache : Cache)
    (d : Descr) (cn0 : String) (skip : Bool)
    (h : dlookup cache (d.fullName, (if cn0 = "" then d.name else cn0), skip) = some none) :
    parseMsg pool cfg (fuel + 1) cache d cn0 skip
      = (.error (.waitingToComplete
          (d.fullName, (if cn0 = "" then d.name else cn0), skip)), cache) := by
  simp only [parseMsg]
  rw [h]

theorem oneOfFieldStep_mono_fst (st : List String × List String) (f : FieldD) (a : String)
    (h : a ∈ st.1) : a ∈ (oneOfFieldStep st f).1 := by
  unfold oneOfFieldStep
  split
  · exact h
  · split
    · exact mem_sadd_of_mem _ _ _ h
    · exact h

theorem oneOfFieldStep_mono_snd (st : List String × List String) (f : FieldD) (b : String)
    (h : b ∈ st.2) : b ∈ (oneOfFieldStep st f).2 := by
  unfold oneOfFieldStep
  split
  · exact h
  · split
    · exact mem_sadd_of_mem _ _ _ h
    · exact h

theorem foldl_oneOfFieldStep_mono_fst (l : List FieldD) :
    ∀ (st : List String × List String) (a : String), a ∈ st.1 →
      a ∈ (l.foldl oneOfFieldStep st).1 := by
  induction l with
  | nil => intro st a h; exact h
  | cons g rest ih =>
    intro st a h
    rw [List.foldl_cons]
    exact ih _ a (oneOfFieldStep_mono_fst st g a h)

theorem foldl_oneOfFieldStep_mono_snd (l : List FieldD) :
    ∀ (st : List String × List String) (b : String), b ∈ st.2 →
      b ∈ (l.foldl oneOfFieldStep st).2 := by
  induction l with
  | nil => intro st b h; exact h
  | cons g rest ih =>
    intro st b h
    rw [List.foldl_cons]
    exact ih _ b (oneOfFieldStep_mono_snd st g b h)

theorem mem_foldl_oneOfFieldStep (l : List FieldD) (f : FieldD) (o : OneofD)
    (hf : f ∈ l) (ho : f.containingOneof = some o) (hn : "_" ++ f.name = o.name) :
    ∀ st : List String × List String,
      o.fullName ∈ (l.foldl oneOfFieldStep st).1
    ∧ f.fullName ∈ (l.foldl oneOfFieldStep st).2 := by
  induction l with
  | nil => cases hf
  | cons g rest ih =>
    intro st
    rcases List.mem_cons.mp hf with he | hm
    · subst he
      rw [List.foldl_cons]
      have hstep : oneOfFieldStep st f = (sadd st.1 o.fullName, sadd st.2 f.fullName) := by
        unfold oneOfFieldStep
        rw [ho]
        show (if "_" ++ f.name = o.name then (sadd st.1 o.fullName, sadd st.2 f.fullName)
              else st) = _
        rw [if_pos hn]
      rw [hstep]
      exact ⟨foldl_oneOfFieldStep_mono_fst rest _ _ (mem_sadd_self _ _),
             foldl_oneOfFieldStep_mono_snd rest _ _ (mem_sadd_self _ _)⟩
    · rw [List.foldl_cons]
      exact ih hm _

theorem dlookup_foldl_requiredStep_ne (odd : List (String × OneOfMeta)) (dfn cn : String)
    (founds : List String) (a : String) (ha : a ≠ cn) :
    ∀ st : List (String × UseOneOf) × List String,
      dlookup ((founds.foldl (oneOfRequiredStep odd dfn cn) st).1) a = dlookup st.1 a := by
  induction founds with
  | nil => intro st; rfl
  | cons fc rest ih =>
    intro st
    rw [List.foldl_cons, ih]
    unfold oneOfRequiredStep
    cases hd : dlookup odd fc with
    | none => rfl
    | some meta =>
      show dlookup (dupdate st.1 cn _) a = dlookup st.1 a
      exact dlookup_dupdate_ne _ _ _ _ ha

theorem dlookup_foldl_membersUpdate_ne (cn : String) (ms : List String) (a : String)
    (ha : a ≠ cn) :
    ∀ l : List (String × UseOneOf),
      dlookup (ms.foldl (fun o fn => dupdate o cn
        (fun u => { u with fields := sadd u.fields fn })) l) a = dlookup l a := by
  induction ms with
  | nil => intro l; rfl
  | cons fc rest ih =>
    intro l
    rw [List.foldl_cons, ih]
    exact dlookup_dupdate_ne _ _ _ _ ha

theorem oneOfStep_lookup_none (odd : List (String × OneOfMeta)) (dfn : String)
    (idSet : List String) (st : List (String × UseOneOf) × List String)
    (ofs : OneofD × List String) (a : String) (haid : a ∈ idSet)
    (h : dlookup st.1 a = none) :
    dlookup (oneOfStep odd dfn idSet st ofs).1 a = none := by
  unfold oneOfStep
  by_cases hcn : ofs.1.fullName ∈ idSet
  · rw [if_pos hcn]
    exact h
  · have hne : a ≠ ofs.1.fullName := by
      intro he
      exact hcn (he ▸ haid)
    rw [if_neg hcn]
    show dlookup (ofs.2.foldl _ (([ofs.1.fullName, dropPkg ofs.1.fullName].foldl
        (oneOfRequiredStep odd dfn ofs.1.fullName)
        (if (dlookup st.1 ofs.1.fullName).isNone
         then (dset st.1 ofs.1.fullName ⟨false, []⟩, st.2) else st)).1)) a = none
    rw [dlookup_foldl_membersUpdate_ne _ _ _ hne,
        dlookup_foldl_requiredStep_ne _ _ _ _ _ hne]
    by_cases hiso : (dlookup st.1 ofs.1.fullName).isNone
    · rw [if_pos hiso]
      show dlookup (dset st.1 ofs.1.fullName ⟨false, []⟩) a = none
      rw [dlookup_dset_ne _ _ _ _ hne]
      exact h
    · rw [if_neg hiso]
      exact h

theorem oneOfRequiredStep_snd_mono (odd : List (String × OneOfMeta)) (dfn cn : String)
    (st : List (String × UseOneOf) × List String) (found : String) (b : String)
    (h : b ∈ st.2) : b ∈ (oneOfRequiredStep odd dfn cn st found).2 := by
  unfold oneOfRequiredStep
  cases hd : dlookup odd found with
  | none => exact h
  | some meta =>
    show b ∈ meta.optionalFields.foldl (fun os fn => sadd os (dfn ++ "." ++ fn)) st.2
    clear hd
    induction meta.optionalFields generalizing st with
    | nil => exact h
    | cons fc rest ih =>
      rw [List.foldl_cons]
      exact ih (st.1, sadd st.2 (dfn ++ "." ++ fc)) (mem_sadd_of_mem _ _ _ h)

theorem foldl_requiredStep_snd_mono (odd : List (String × OneOfMeta)) (dfn cn : String)
    (founds : List String) (b : String) :
    ∀ st : List (String × UseOneOf) × List String, b ∈ st.2 →
      b ∈ ((founds.foldl (oneOfRequiredStep odd dfn cn) st).2) := by
  induction founds with
  | nil => intro st h; exact h
  | cons fc rest ih =>
    intro st h
    rw [List.foldl_cons]
    exact ih _ (oneOfRequiredStep_snd_mono odd dfn cn st fc b h)

theorem oneOfStep_snd_mono (odd : List (String × OneOfMeta)) (dfn : String)
    (idSet : List String) (st : List (String × UseOneOf) × List String)
    (ofs : OneofD × List String) (b : String) (h : b ∈ st.2) :
    b ∈ (oneOfStep odd dfn idSet st ofs).2 := by
  unfold oneOfStep
  by_cases hcn : ofs.1.fullName ∈ idSet
  · rw [if_pos hcn]
    exact h
  · rw [if_neg hcn]
    show b ∈ ([ofs.1.fullName, dropPkg ofs.1.fullName].foldl
        (oneOfRequiredStep odd dfn ofs.1.fullName)
        (if (dlookup st.1 ofs.1.fullName).isNone
         then (dset st.1 ofs.1.fullName ⟨false, []⟩, st.2) else st)).2
    apply foldl_requiredStep_snd_mono
    by_cases hiso : (dlookup st.1 ofs.1.fullName).isNone
    · rw [if_pos hiso]
      exact h
    · rw [if_neg hiso]
      exact h

theorem foldl_oneOfStep_lookup_none (odd : List (String × OneOfMeta)) (dfn : String)
    (idSet : List String) (oneofs : List (OneofD × List String)) (a : String)
    (haid : a ∈ idSet) :
    ∀ st : List (String × UseOneOf) × List String, dlookup st.1 a = none →
      dlookup ((oneofs.foldl (oneOfStep odd dfn idSet) st).1) a = none := by
  induction oneofs with
  | nil => intro st h; exact h
  | cons ofs rest ih =>
    intro st h
    rw [List.foldl_cons]
    exact ih _ (oneOfStep_lookup_none odd dfn idSet st ofs a haid h)

theorem foldl_oneOfStep_snd_mono (odd : List (String × OneOfMeta)) (dfn : String)
    (idSet : List String) (oneofs : List (OneofD × List String)) (b : String) :
    ∀ st : List (String × UseOneOf) × List String, b ∈ st.2 →
      b ∈ ((oneofs.foldl (oneOfStep odd dfn idSet) st).2) := by
  induction oneofs with
  | nil => intro st h; exact h
  | cons ofs rest ih =>
    intro st h
    rw [List.foldl_cons]
    exact ih _ (oneOfStep_snd_mono odd dfn idSet st ofs b h)

/-- Claim C1 (the code violates the specified clean-up): when `create_model`
raises an error unrelated to `arbitrary_types_allowed` mid-resolution of
`p.A`, the failure propagates to the caller but the in-progress `None`
sentinel is NOT removed from the cache — `_parse_msg_to_pydantic_model`
installs no clean-up handler — so a later compilation of the same key finds
the dangling sentinel and fails with `WaitingToCompleteException` instead of
being able to retry. -/
theorem failing_resolution_keeps_sentinel :
    (parseMsg poolA failingConfig 1 [] descrA "" false).1 = .error (.createModelError "boom")
  ∧ dlookup (parseMsg poolA failingConfig 1 [] descrA "" false).2 ("p.A", "A", false)
      = some none
  ∧ (parseMsg poolA failingConfig 1 (parseMsg poolA failingConfig 1 [] descrA "" false).2
      descrA "" false).1 = .error (.waitingToComplete ("p.A", "A", false)) :=
  ⟨rfl, rfl, rfl⟩

/-- Counterexample to C2 as stated: two invocations that both omit the
`create_model_cache` argument DO share cached entries.  The first invocation
(global cache initially empty) stores the model for `("p.A", "A", False)`
into the module-level cache; the second invocation's run cache — selected by
`create_model_cache or _create_model_cache` — already contains that entry,
and the second invocation returns the first invocation's cached model. -/
theorem omitted_cache_shared_counterexample :
    dlookup (m2pChooseCache none (m2pRun poolA baseConfig 1 descrA none []).2.2)
      ("p.A", "A", false) = some (some modelA)
  ∧ (m2pRun poolA baseConfig 1 descrA none (m2pRun poolA baseConfig 1 descrA none []).2.2).1
      = .ok modelA :=
  ⟨rfl, rfl⟩

/-- Claim C2 as amended: when the caller omits `create_model_cache` (the
argument defaults to `None`, and an empty dictionary is treated the same way
by the `or`), the compiler uses the shared module-level cache, not a
private run-scoped one: an invocation that omits the argument operates
directly on the module-level cache, returns any completed entry another
invocation stored there, and writes its results back to it. -/
theorem omitted_cache_uses_global (pool : Pool) (cfg : Config) (fuel : Nat) (d : Descr)
    (glob : Cache) (m : PModel)
    (h : dlookup glob (d.fullName, d.name, false) = some (some m)) :
    m2pChooseCache none glob = glob
  ∧ (m2pRun pool cfg (fuel + 1) d none glob).1 = .ok m
  ∧ (m2pRun pool cfg (fuel + 1) d none glob).2.2 = glob := by
  have hp := parseMsg_completed_hit pool cfg fuel glob d "" false m
    (by rw [if_pos rfl]; exact h)
  refine ⟨rfl, ?_, ?_⟩
  · show (parseMsg pool cfg (fuel + 1) (m2pChooseCache none glob) d "" false).1 = .ok m
    rw [show m2pChooseCache none glob = glob from rfl, hp]
  · show (if m2pUsesGlobalCache none then
        (parseMsg pool cfg (fuel + 1) (m2pChooseCache none glob) d "" false).2 else glob) = glob
    rw [show m2pChooseCache none glob = glob from rfl, hp]
    rfl

/-- Witness for C2 (amended): a global cache holding a completed entry for
`("p.A", "A", False)` is picked up by an invocation omitting the argument. -/
theorem omitted_cache_uses_global_witness :
    dlookup [((("p.A" : String), ("A" : String), false), some modelA)]
      (descrA.fullName, descrA.name, false) = some (some modelA)
  ∧ (m2pRun poolA baseConfig 1 descrA none
      [((("p.A" : String), ("A" : String), false), some modelA)]).1 = .ok modelA :=
  ⟨rfl, (omitted_cache_uses_global poolA baseConfig 0 descrA
    [((("p.A" : String), ("A" : String), false), some modelA)] modelA rfl).2.1⟩

/-- Claim C3: when the cache already holds a completed model under the
computed key, compiling that key again returns exactly the stored model
value (the identical object — the very reference held in the cache) and the
whole cache, in particular that entry, is left unchanged. -/
theorem completed_entry_returned_identically (pool : Pool) (cfg : Config) (fuel : Nat)
    (cache : Cache) (d : Descr) (cn0 : String) (skip : Bool) (m : PModel)
    (h : dlookup cache (d.fullName, (if cn0 = "" then d.name else cn0), skip)
        = some (some m)) :
    parseMsg pool cfg (fuel + 1) cache d cn0 skip = (.ok m, cache) :=
  parseMsg_completed_hit pool cfg fuel cache d cn0 skip m h

/-- Witness for C3: a cache holding `modelA` under `("p.A", "A", False)`
returns `modelA` itself and is left unchanged. -/
theorem completed_entry_returned_identically_witness :
    dlookup [((("p.A" : String), ("A" : String), false), some modelA)]
      (descrA.fullName, (if ("A" : String) = "" then descrA.name else "A"), false)
      = some (some modelA)
  ∧ parseMsg poolA baseConfig 1 [((("p.A" : String), ("A" : String), false), some modelA)]
      descrA "A" false
      = (.ok modelA, [((("p.A" : String), ("A" : String), false), some modelA)]) :=
  ⟨rfl, completed_entry_returned_identically poolA baseConfig 0
    [((("p.A" : String), ("A" : String), false), some modelA)] descrA "A" false modelA rfl⟩

/-- Claim C4: a cache entry holding the in-progress sentinel makes the
resolution of that key fail immediately with `WaitingToCompleteException`
(no further recursion, no waiting: the cache is returned untouched), and the
enclosing message handler can recover from exactly this error by keeping the
already-substituted forward/placeholder string reference for the field. -/
theorem cyclic_reference_detected :
    (∀ (pool : Pool) (cfg : Config) (fuel : Nat) (cache : Cache) (d : Descr)
       (cn0 : String) (skip : Bool),
       dlookup cache (d.fullName, (if cn0 = "" then d.name else cn0), skip) = some none →
       parseMsg pool cfg (fuel + 1) cache d cn0 skip
         = (.error (.waitingToComplete
             (d.fullName, (if cn0 = "" then d.name else cn0), skip)), cache))
  ∧ (∀ (pool : Pool) (cfg : Config) (recur : RecurT) (cache c2 : Cache)
       (nestedDict : List (String × NestedEntry)) (d : Descr) (fd : FieldSt)
       (mtKey : String) (mt : Descr) (k : CacheKey),
       fd.protobufField.messageTypeName = some mtKey →
       dlookup pool.msgs mtKey = some mt →
       dlookup cfg.messageTypeDict mt.name = none →
       pyEndsWith mt.name "Entry" = false →
       pyStartsWith mt.fileName "google/protobuf/" = false →
       metaSkipFlag (cfg.metadata fd.protobufField.fullName) = false →
       dlookup nestedDict mt.fullName = none →
       d.fileName = mt.fileName →
       mt.fullName ≠ d.fullName →
       recur cache mt mt.name false = (.error (.waitingToComplete k), c2) →
       messageTypeHandler pool cfg recur cache nestedDict d fd
         = (.ok ({ fd with fieldType := .forwardRef mt.name }, nestedDict), c2)) := by
  constructor
  · intro pool cfg fuel cache d cn0 skip h
    exact parseMsg_sentinel_hit pool cfg fuel cache d cn0 skip h
  · intro pool cfg recur cache c2 nestedDict d fd mtKey mt k h1 h2 h3 h4 h5 h6 h7 h8 h9 hrec
    unfold messageTypeHandler
    rw [h1]
    simp only [h2, h3, h4, h5, h6, h7, h8, Bool.false_eq_true, if_false]
    rw [if_neg (by simp [h8])]
    rw [if_pos (Or.inr h9)]
    rw [if_pos not_false]
    rw [hrec]

/-- Witness for C4: a sentinel under `("p.A", "A", False)` fails immediately,
and the handler keeps the forward reference `"N"` when compiling the sibling
message `q.N` of `q.M` reports `WaitingToCompleteException`. -/
theorem cyclic_reference_detected_witness :
    parseMsg poolA baseConfig 1 [((("p.A" : String), ("A" : String), false), none)]
      descrA "" false
      = (.error (.waitingToComplete ("p.A", "A", false)),
         [((("p.A" : String), ("A" : String), false), none)])
  ∧ messageTypeHandler poolSibling baseConfig recurWaiting [] [] siblingParentDescr
      (initFieldSt siblingField)
      = (.ok ({ initFieldSt siblingField with fieldType := .forwardRef "N" }, []), []) := by
  constructor
  · exact cyclic_reference_detected.1 poolA baseConfig 0
      [((("p.A" : String), ("A" : String), false), none)] descrA "" false rfl
  · exact cyclic_reference_detected.2 poolSibling baseConfig recurWaiting [] [] []
      siblingParentDescr (initFieldSt siblingField) "q.N" siblingChildDescr
      ("q.N", "N", false) rfl rfl rfl (by decide) (by decide) rfl rfl rfl (by decide) rfl

/-- Counterexample to C5 as stated: a same-file self-referential field whose
message type is short-named `Duration` is resolved through the well-known
type registry (matched by short name, which takes priority), not as a
forward/placeholder string reference, even though its full name equals the
enclosing message's full name and no skip directive is present. -/
theorem self_reference_wellknown_name_counterexample :
    (messageTypeHandler poolDuration baseConfig recurStub [] [] selfDurationDescr
        (initFieldSt selfDurationField)).1.map (fun p => p.1.fieldType)
      = .ok (.wellKnownType "Timedelta")
  ∧ ¬ ((messageTypeHandler poolDuration baseConfig recurStub [] [] selfDurationDescr
        (initFieldSt selfDurationField)).1.map (fun p => p.1.fieldType)
      = .ok (.forwardRef "Duration")) := by
  constructor
  · rfl
  · intro h
    rw [show (messageTypeHandler poolDuration baseConfig recurStub [] [] selfDurationDescr
        (initFieldSt selfDurationField)).1.map (fun p => p.1.fieldType)
        = Except.ok (PyType.wellKnownType "Timedelta") from rfl] at h
    exact PyType.noConfusion (Except.ok.inj h)

/-- Claim C5 as amended: for a same-file message field whose type's full
name equals the enclosing message's full name, which carries no
skip-validation directive, and whose type is not captured by one of the
earlier branches of the handler (short name not in the well-known-type
registry, not a map-entry `...Entry` name, not declared under
`google/protobuf/`, full name not in the nested-message dictionary — the
last being automatic for a message and its own nested types), the field type
resolver returns the forward/placeholder string reference to the class name
and does not recurse into the schema walker: the result is the same for
every recursion callable and the cache is untouched. -/
theorem self_reference_forward_ref (pool : Pool) (cfg : Config) (recur : RecurT)
    (cache : Cache) (nestedDict : List (String × NestedEntry)) (d : Descr) (fd : FieldSt)
    (mtKey : String) (mt : Descr)
    (h1 : fd.protobufField.messageTypeName = some mtKey)
    (h2 : dlookup pool.msgs mtKey = some mt)
    (h3 : dlookup cfg.messageTypeDict mt.name = none)
    (h4 : pyEndsWith mt.name "Entry" = false)
    (h5 : pyStartsWith mt.fileName "google/protobuf/" = false)
    (h6 : metaSkipFlag (cfg.metadata fd.protobufField.fullName) = false)
    (h7 : dlookup nestedDict mt.fullName = none)
    (h8 : d.fileName = mt.fileName)
    (h9 : mt.fullName = d.fullName) :
    messageTypeHandler pool cfg recur cache nestedDict d fd
      = (.ok ({ fd with fieldType := .forwardRef mt.name }, nestedDict), cache) := by
  unfold messageTypeHandler
  rw [h1]
  simp only [h2, h3, h4, h5, h6, h7, h8, Bool.false_eq_true, if_false]
  rw [if_neg (by simp [h8])]
  rw [if_neg (by simp [h9])]

/-- Witness for C5 (amended): the self-referential message `q.Node` (name
not in any registry) resolves its `child` field to the forward reference
`"Node"` without recursing, leaving cache and nested dictionary unchanged. -/
theorem self_reference_forward_ref_witness :
    messageTypeHandler poolNode baseConfig recurStub [] [] selfNodeDescr
      (initFieldSt selfNodeField)
      = (.ok ({ initFieldSt selfNodeField with fieldType := .forwardRef "Node" }, []), []) :=
  self_reference_forward_ref poolNode baseConfig recurStub [] [] selfNodeDescr
    (initFieldSt selfNodeField) "q.Node" selfNodeDescr rfl rfl rfl (by decide) (by decide)
    rfl rfl rfl rfl

/-- Claim C6: a field whose containing oneof group is named by prefixing an
underscore to the field's own name is treated as proto3-optional: the
group's key appears in no `UseOneOfTypedDict` entry of `_one_of_handle`'s
output (the `_one_of_dict` later attached to the model), the field's full
name is recorded in the optional set, and the per-field emission step wraps
the field type in `Optional[...]` and turns a still-undefined default into
`None`. -/
theorem proto3_optional_excluded (cfg : Config) (d : Descr) (f : FieldD) (o : OneofD)
    (hf : f ∈ d.fields) (ho : f.containingOneof = some o) (hn : o.name = "_" ++ f.name) :
    dlookup (oneOfHandle cfg d).1 o.fullName = none
  ∧ f.fullName ∈ (oneOfHandle cfg d).2
  ∧ (∀ fd : FieldSt, fd.protobufField.fullName = f.fullName →
      (applyProto3Optional (oneOfHandle cfg d).2 fd).fieldType = .optionalOf fd.fieldType
    ∧ (applyProto3Optional (oneOfHandle cfg d).2 fd).fieldDefault
        = (if fd.fieldDefault = .undefined then PyVal.pyNone else fd.fieldDefault)) := by
  have hmem := mem_foldl_oneOfFieldStep d.fields f o hf ho hn.symm ([], [])
  have hlook : dlookup (oneOfHandle cfg d).1 o.fullName = none := by
    unfold oneOfHandle
    exact foldl_oneOfStep_lookup_none _ _ _ d.oneofs o.fullName hmem.1 _ rfl
  have hopt : f.fullName ∈ (oneOfHandle cfg d).2 := by
    unfold oneOfHandle
    exact foldl_oneOfStep_snd_mono _ _ _ d.oneofs f.fullName _ hmem.2
  refine ⟨hlook, hopt, ?_⟩
  intro fd hfd
  unfold applyProto3Optional
  rw [if_pos (by rw [hfd]; exact hopt)]
  by_cases hdef : fd.fieldDefault = .undefined
  · rw [if_pos hdef, if_pos hdef]
    exact ⟨rfl, rfl⟩
  · rw [if_neg hdef, if_neg hdef]
    exact ⟨rfl, rfl⟩

/-- Witness for C6: the proto3-optional field `x` of `p.M` (oneof `_x`):
the group is excluded, the field is in the optional set, and its emitted
type is wrapped `Optional[str]` with default `None`. -/
theorem proto3_optional_excluded_witness :
    dlookup (oneOfHandle baseConfig optDescr).1 "p.M._x" = none
  ∧ "p.M.x" ∈ (oneOfHandle baseConfig optDescr).2
  ∧ (applyProto3Optional (oneOfHandle baseConfig optDescr).2
      (initFieldSt optField)).fieldType = .optionalOf (initFieldSt optField).fieldType
  ∧ (applyProto3Optional (oneOfHandle baseConfig optDescr).2
      (initFieldSt optField)).fieldDefault = PyVal.pyNone := by
  have h := proto3_optional_excluded baseConfig optDescr optField optOneof
    (by decide) rfl (by decide)
  exact ⟨h.1, h.2.1, (h.2.2 (initFieldSt optField) rfl).1,
    (h.2.2 (initFieldSt optField) rfl).2⟩

end GenModel

end ProtobufToPydantic
